import Mathlib

/-!
Verification of the ComputeCpp SYCL header library (index classes, group
and work-item indexing, host work-group copies) against its specification.

The embedding models `size_t` as `Nat` with explicit reduction modulo
`2 ^ 64` at every arithmetic operation that can wrap, and translates the
C++ classes `detail::index_array`, `detail::index_array_base`,
`cl::sycl::range<d>`, `cl::sycl::id<d>`, `cl::sycl::group<d>` and their
operators directly from the sources (`index_array.h`,
`index_array_operators.h`, `range.h`, `id.h`, `group.h`).
-/

namespace SYCL

/-- The modulus of the C++ `size_t` type (64-bit). -/
def W : Nat := 2 ^ 64

/-- `size_t` multiplication: wraps modulo `2 ^ 64`. -/
def stMul (a b : Nat) : Nat := (a * b) % W

/-- `size_t` addition: wraps modulo `2 ^ 64`. -/
def stAdd (a b : Nat) : Nat := (a + b) % W

/-- `detail::index_array` (index_array.h:29-116): three `size_t` fields
`m_idx[0] m_idx[1] m_idx[2]`. -/
structure index_array where
  m_idx0 : Nat
  m_idx1 : Nat
  m_idx2 : Nat
deriving DecidableEq, Repr

/-- Raw read of `m_idx[dimension]` (as done by `index_array::get`,
index_array.h:73, which performs no bounds check). -/
def index_array.get (a : index_array) : Nat → Nat
  | 0 => a.m_idx0
  | 1 => a.m_idx1
  | _ => a.m_idx2

/-- `index_array::operator[]` (index_array.h:129-132): asserts
`dimension < 3` (`COMPUTECPP_ASSERT`), then returns `m_idx[dimension]`.
`none` models a failure of the assertion. -/
def index_array.opIndex (a : index_array) (dimension : Nat) : Option Nat :=
  if dimension < 3 then some (a.get dimension) else none

/-- `detail::index_array_base` (index_array.h:140-199): holds an
`index_array` member `m_idx`. -/
structure index_array_base where
  m_idx : index_array
deriving DecidableEq, Repr

/-- `index_array_base::operator[]` (index_array.h:212-215): asserts
`dimension < 3`, then returns `m_idx[dimension]`. -/
def index_array_base.opIndex (a : index_array_base) (dimension : Nat) :
    Option Nat :=
  if dimension < 3 then some (a.m_idx.get dimension) else none

/-- `range<1>::range(size_t dim1)` (range.h:73-74): underlying array
`(dim1, 1, 1)`. -/
def range1 (dim1 : Nat) : index_array := ⟨dim1, 1, 1⟩

/-- `range<2>::range(size_t dim1, size_t dim2)` (range.h:106-107):
underlying array `(dim1, dim2, 1)`. -/
def range2 (dim1 dim2 : Nat) : index_array := ⟨dim1, dim2, 1⟩

/-- `range<3>::range(size_t dim1, size_t dim2, size_t dim3)`
(range.h:140-141). -/
def range3 (dim1 dim2 dim3 : Nat) : index_array := ⟨dim1, dim2, dim3⟩

/-- `range<1>::range()` (range.h:65): initializes the base with
`(1, 1, 1)`. -/
def range1_default : index_array := ⟨1, 1, 1⟩

/-- `range<2>::range()` (range.h:96): initializes the base with
`(1, 1, 1)`. -/
def range2_default : index_array := ⟨1, 1, 1⟩

/-- `range<3>::range()` (range.h:129): initializes the base with
`(1, 1, 1)`. -/
def range3_default : index_array := ⟨1, 1, 1⟩

/-- `id<1>::id(size_t x)` (id.h:74): underlying array `(x, 0, 0)`. -/
def id1 (x : Nat) : index_array := ⟨x, 0, 0⟩

/-- `id<2>::id(size_t x, size_t y)` (id.h:128-129). -/
def id2 (x y : Nat) : index_array := ⟨x, y, 0⟩

/-- `id<3>::id(size_t x, size_t y, size_t z)` (id.h:194-195). -/
def id3 (x y z : Nat) : index_array := ⟨x, y, z⟩

/-- `id<d>::id()` (id.h:66,120,186): initializes the base with
`(0, 0, 0)` for every dimension. -/
def id_default : index_array := ⟨0, 0, 0⟩

/-- `range<d>::range(const detail::index_array&)` (range.h:79,112-113,
146-147): takes the first `d` components and pads with the `range`
value constructors (trailing components become 1). -/
def range_ofIndexArray (d : Nat) (ia : index_array) : index_array :=
  match d with
  | 1 => range1 (ia.get 0)
  | 2 => range2 (ia.get 0) (ia.get 1)
  | _ => range3 (ia.get 0) (ia.get 1) (ia.get 2)

/-- `id<d>::id(const detail::index_array&)` (id.h:88,141-142,208-209):
takes the first `d` components and pads with the `id` value
constructors (trailing components become 0). -/
def id_ofIndexArray (d : Nat) (ia : index_array) : index_array :=
  match d with
  | 1 => id1 (ia.get 0)
  | 2 => id2 (ia.get 0) (ia.get 1)
  | _ => id3 (ia.get 0) (ia.get 1) (ia.get 2)

/-- `range<1>::size()` (range.h:85): `m_idx[0]`. -/
def range1_size (r : index_array) : Nat := r.get 0

/-- `range<2>::size()` (range.h:118): `m_idx[0] * m_idx[1]` as `size_t`
multiplication. -/
def range2_size (r : index_array) : Nat := stMul (r.get 0) (r.get 1)

/-- `range<3>::size()` (range.h:153): `m_idx[0] * m_idx[1] * m_idx[2]`
as left-associated `size_t` multiplications. -/
def range3_size (r : index_array) : Nat :=
  stMul (stMul (r.get 0) (r.get 1)) (r.get 2)

/-- The body of `COMPUTECPP_IDX_IDX_OPERATOR`
(index_array_operators.h:79-87) for a binary arithmetic operator `op` at
dimensionality `d`: the result object is default-constructed (underlying
array `defRes`), then slot 0 is always assigned and slots 1 and 2 are
assigned only when `dimensions > 1` resp. `dimensions > 2`. -/
def idx_idx_op (d : Nat) (op : Nat → Nat → Nat) (defRes a b : index_array) :
    index_array :=
  ⟨op (a.get 0) (b.get 0),
   if 1 < d then op (a.get 1) (b.get 1) else defRes.get 1,
   if 2 < d then op (a.get 2) (b.get 2) else defRes.get 2⟩

/-- The body of `COMPUTECPP_IDX_COMPARISON_OPERATOR`
(index_array_operators.h:95-103): slots below `d` receive the 0-or-1
value of the componentwise comparison (a C++ `bool` stored into a
`size_t` slot), the remaining slots keep the default-constructed result
object's values. -/
def idx_cmp_op (d : Nat) (op : Nat → Nat → Bool) (defRes a b : index_array) :
    index_array :=
  ⟨cond (op (a.get 0) (b.get 0)) 1 0,
   if 1 < d then cond (op (a.get 1) (b.get 1)) 1 0 else defRes.get 1,
   if 2 < d then cond (op (a.get 2) (b.get 2)) 1 0 else defRes.get 2⟩

/-- Non-member `operator<` (index_array_operators.h:531-536). -/
def idx_lt (d : Nat) (defRes a b : index_array) : index_array :=
  idx_cmp_op d (fun x y => decide (x < y)) defRes a b

/-- Non-member `operator>` (index_array_operators.h:501-506). -/
def idx_gt (d : Nat) (defRes a b : index_array) : index_array :=
  idx_cmp_op d (fun x y => decide (y < x)) defRes a b

/-- Non-member `operator<=` (index_array_operators.h:546-551). -/
def idx_le (d : Nat) (defRes a b : index_array) : index_array :=
  idx_cmp_op d (fun x y => decide (x ≤ y)) defRes a b

/-- Non-member `operator>=` (index_array_operators.h:516-521). -/
def idx_ge (d : Nat) (defRes a b : index_array) : index_array :=
  idx_cmp_op d (fun x y => decide (y ≤ x)) defRes a b

/-- Non-member `operator*` applied to a `range<d>` and an `id<d>`
(index_array_operators.h:613-618 together with the result-type trait of
id.h:239-242): the result is a default-constructed `id<d>` whose slots
below `d` receive the `size_t` product. -/
def range_mul_id (d : Nat) (a b : index_array) : index_array :=
  idx_idx_op d stMul id_default a b

/-- Non-member `operator+` applied to two `id<d>` objects
(index_array_operators.h:561-566): the result is a default-constructed
`id<d>` whose slots below `d` receive the `size_t` sum. -/
def id_add_id (d : Nat) (a b : index_array) : index_array :=
  idx_idx_op d stAdd id_default a b

/-- Modelled from the spec: `detail::group_base` (declared in
group_base.h, which is not among the sources; only its use in group.h
is) is the container behind `cl::sycl::group`, holding the members that
group.h reads: the group id `m_groupID`, the physical local range
`m_localRange`, the group range `m_groupRange`, the global range
`m_globalRange`, and the number-of-groups array `m_numGroups`. -/
structure group_base where
  m_groupID : index_array
  m_localRange : index_array
  m_groupRange : index_array
  m_globalRange : index_array
  m_numGroups : index_array
deriving DecidableEq, Repr

/-- Modelled from the spec: the `detail::group_base` constructor
(group_base.h, not among the sources) stores its four arguments; the
first becomes the group id, the third the global range, the fourth the
number-of-groups array. group.h:54-60 passes the work-group range as
the second argument; it is stored as the local and group range members
(only the first, third and fourth fields are observed by the claims). -/
def group_base.ctor (groupID groupRange globalRange numGroups : index_array) :
    group_base :=
  ⟨groupID, groupRange, groupRange, globalRange, numGroups⟩

/-- `group<d>::group(id<d> groupID, id<d> groupRange, range<d>
globalRange)` (group.h:54-60): delegates to the group_base constructor,
computing the number-of-groups array as the componentwise `size_t`
quotient `globalRange[i] / groupRange[i]` over all three slots. -/
def group.ctor (groupID groupRange globalRange : index_array) : group_base :=
  group_base.ctor groupID groupRange globalRange
    ⟨globalRange.get 0 / groupRange.get 0,
     globalRange.get 1 / groupRange.get 1,
     globalRange.get 2 / groupRange.get 2⟩

/-- `group<d>::is_zero_id()` (group.h:67-70): converts the stored group
id to an `id<d>` via `get_id()` (group.h:122, which pads trailing slots
with 0) and checks all three slots against zero. -/
def group_base.is_zero_id (d : Nat) (g : group_base) : Bool :=
  (id_ofIndexArray d g.m_groupID).get 0 == 0 &&
  (id_ofIndexArray d g.m_groupID).get 1 == 0 &&
  (id_ofIndexArray d g.m_groupID).get 2 == 0

/-- The `detail::cpp_error_code` value used by range.h (the full
enumeration lives in predefines.h, which is not among the sources). -/
inductive cpp_error_code where
  | TARGET_FORMAT_ERROR
deriving DecidableEq, Repr

/-- `info_convert<size_t*, range<3>>::cl_to_sycl` (range.h:163-171):
checks `numElems != 3` and otherwise builds `range<3>(clPtr[0],
clPtr[1], clPtr[2])`. `clPtr` is the `size_t` array, read at offsets
0, 1, 2. Modelled from the spec: `COMPUTECPP_CL_ERROR_CODE_MSG`
(predefines.h, not among the sources) raises a ComputeCpp error
carrying the given `cpp_error_code`; the embedding returns it as
`Except.error`. -/
def info_convert_cl_to_sycl (clPtr : Nat → Nat) (numElems : Nat) :
    Except cpp_error_code index_array :=
  if numElems ≠ 3 then Except.error cpp_error_code.TARGET_FORMAT_ERROR
  else Except.ok (range3 (clPtr 0) (clPtr 1) (clPtr 2))

/-- Modelled from the spec: `detail::item_base` (item_base.h, which is
not among the sources; only its use in group.h is) stores the id and
the range it is constructed from (group.h:234-236 constructs one from
an id and a range). -/
structure item_base where
  m_id : index_array
  m_range : index_array
deriving DecidableEq, Repr

/-- Modelled from the spec: `detail::h_item_base` (h_item.h, not among
the sources) stores the three `item_base` objects passed at its
construction in group.h:233-236: the logical local item, the physical
local item and the global item. -/
structure h_item_base where
  logicalLocalItem : item_base
  physicalLocalItem : item_base
  globalItem : item_base
deriving DecidableEq, Repr

/-- Host path of `group<d>::parallel_for_work_item(flexibleRange, func)`
(group.h:214-242), recording in invocation order the `h_item` passed to
`func` at each step. The loops iterate `itemZ`, `itemY`, `itemX` over
the three slots of `flexibleRange` (z outermost, x innermost).
`physicalLocalID` is an `id<d>` whose three raw slots are assigned
`item· % physicalLocalRange[·]` by the loops (group.h:224-228, all
three slots written before the first invocation); `localID` is the
`id<d>` built from `index_array(itemX, itemY, itemZ)` (group.h:230);
`globalID` is `physicalLocalRange * groupID + physicalLocalID`
(group.h:219,231) with the C++ `id` operators at dimensionality `d`. -/
def parallel_for_work_item (d : Nat) (g : group_base)
    (flexibleRange : index_array) : List h_item_base :=
  let globalRange := range_ofIndexArray d g.m_globalRange
  let physicalLocalRange := range_ofIndexArray d g.m_localRange
  let groupID := id_ofIndexArray d g.m_groupID
  let globalIdBase := range_mul_id d physicalLocalRange groupID
  (List.range (flexibleRange.get 2)).flatMap fun itemZ =>
    (List.range (flexibleRange.get 1)).flatMap fun itemY =>
      (List.range (flexibleRange.get 0)).map fun itemX =>
        let physicalLocalID : index_array :=
          ⟨itemX % physicalLocalRange.get 0,
           itemY % physicalLocalRange.get 1,
           itemZ % physicalLocalRange.get 2⟩
        let localID := id_ofIndexArray d ⟨itemX, itemY, itemZ⟩
        let globalID := id_add_id d globalIdBase physicalLocalID
        ⟨⟨localID, flexibleRange⟩, ⟨physicalLocalID, physicalLocalRange⟩,
         ⟨globalID, globalRange⟩⟩

/-- One pointer write `*(dest + a) = v` of the host copy loops, on a
memory modelled as a function from `size_t` offsets to element values. -/
def memUpd (dest : Nat → Nat) (a v : Nat) : Nat → Nat :=
  fun k => if k = a then v else dest k

/-- Host loop of the strided global-to-local copy (group.h:319-323):
`size_t srcIter = 0; for (size_t i = 0; i < numElements; i++) {
*(dest + i) = *(src + srcIter); srcIter += srcStride; }`, the `size_t`
iterator wrapping modulo `2 ^ 64`. The first numeric argument counts
the remaining iterations, the next two are the current `i` and
`srcIter`. -/
def g2l_loop (src : Nat → Nat) (srcStride : Nat) :
    Nat → Nat → Nat → (Nat → Nat) → (Nat → Nat)
  | 0, _, _, dest => dest
  | r + 1, i, srcIter, dest =>
      g2l_loop src srcStride r (i + 1) (stAdd srcIter srcStride)
        (memUpd dest i (src srcIter))

/-- Host loop of the strided local-to-global copy (group.h:346-350):
`size_t dstIter = 0; for (size_t i = 0; i < numElements; i++) {
*(dest + dstIter) = *(src + i); dstIter += destStride; }`. -/
def l2g_loop (src : Nat → Nat) (destStride : Nat) :
    Nat → Nat → Nat → (Nat → Nat) → (Nat → Nat)
  | 0, _, _, dest => dest
  | r + 1, i, dstIter, dest =>
      l2g_loop src destStride r (i + 1) (stAdd dstIter destStride)
        (memUpd dest dstIter (src i))

/-- Host path of the strided `group<d>::async_work_group_copy(local_ptr
dest, global_ptr src, numElements, srcStride)` (group.h:317-326): only
the group whose id is zero performs the copy, element by element; the
function returns the final state of the destination memory (the
returned `device_event` is default-constructed and carries nothing). -/
def async_work_group_copy_g2l_host (d : Nat) (g : group_base)
    (dest src : Nat → Nat) (numElements srcStride : Nat) : Nat → Nat :=
  if group_base.is_zero_id d g then
    g2l_loop src srcStride numElements 0 0 dest
  else dest

/-- Host path of the strided `group<d>::async_work_group_copy(global_ptr
dest, local_ptr src, numElements, destStride)` (group.h:344-353). -/
def async_work_group_copy_l2g_host (d : Nat) (g : group_base)
    (dest src : Nat → Nat) (numElements destStride : Nat) : Nat → Nat :=
  if group_base.is_zero_id d g then
    l2g_loop src destStride numElements 0 0 dest
  else dest

/-- Host path of the non-strided global-to-local overload
(group.h:276-279): delegates to the strided variant with stride 1. -/
def async_work_group_copy_g2l_host_nostride (d : Nat) (g : group_base)
    (dest src : Nat → Nat) (numElements : Nat) : Nat → Nat :=
  async_work_group_copy_g2l_host d g dest src numElements 1

/-- Host path of the non-strided local-to-global overload
(group.h:296-299): delegates to the strided variant with stride 1. -/
def async_work_group_copy_l2g_host_nostride (d : Nat) (g : group_base)
    (dest src : Nat → Nat) (numElements : Nat) : Nat → Nat :=
  async_work_group_copy_l2g_host d g dest src numElements 1

end SYCL

namespace SYCL

/-- C4: For every range<d> r (d = 1, 2, 3), r.size() returns the product
of the extents of its d dimensions as size_t multiplication, i.e. modulo
2^64: r[0] for d = 1, r[0]*r[1] for d = 2, r[0]*r[1]*r[2] for d = 3. -/
theorem range_size_is_product (r : index_array) :
    range1_size r = r.get 0 ∧
    range2_size r = (r.get 0 * r.get 1) % W ∧
    range3_size r = (r.get 0 * r.get 1 * r.get 2) % W := by
  refine ⟨rfl, rfl, ?_⟩
  show ((r.get 0 * r.get 1) % W * r.get 2) % W = (r.get 0 * r.get 1 * r.get 2) % W
  simp [Nat.mul_mod]

/-- C5: Every default-constructed range<d> (d = 1, 2, 3) has every one of
its d components equal to 1, and equals range<d>(1), range<d>(1,1),
range<d>(1,1,1) respectively. -/
theorem range_default_is_all_ones :
    range1_default = range1 1 ∧ range1_default.get 0 = 1 ∧
    range2_default = range2 1 1 ∧ range2_default.get 0 = 1 ∧
    range2_default.get 1 = 1 ∧
    range3_default = range3 1 1 1 ∧ range3_default.get 0 = 1 ∧
    range3_default.get 1 = 1 ∧ range3_default.get 2 = 1 := by
  decide

/-- C6: Every default-constructed id<d> (d = 1, 2, 3) has every component
equal to 0. The three default constructors (id.h:66, 120, 186) all
initialize the underlying array to (0, 0, 0). -/
theorem id_default_is_all_zeros :
    id_default.get 0 = 0 ∧ id_default.get 1 = 0 ∧ id_default.get 2 = 0 ∧
    id_default = id3 0 0 0 := by
  decide

/-- C7: For every index_array (and index_array_base) x and every
dimension < 3, the assertion `dimension < 3` in operator[] holds (the
error branch is unreachable under this precondition) and x[dimension]
returns exactly the stored element m_idx[dimension]. -/
theorem opIndex_in_bounds (a : index_array) (b : index_array_base)
    (dimension : Nat) (h : dimension < 3) :
    a.opIndex dimension = some (a.get dimension) ∧
    b.opIndex dimension = some (b.m_idx.get dimension) := by
  constructor
  · simp [index_array.opIndex, h]
  · simp [index_array_base.opIndex, h]

/-- Witness for C7 at a concrete index array and dimension 2. -/
theorem opIndex_in_bounds_witness :
    (index_array.mk 4 5 6).opIndex 2 = some ((index_array.mk 4 5 6).get 2) ∧
    (index_array_base.mk ⟨7, 8, 9⟩).opIndex 2 =
      some ((index_array_base.mk ⟨7, 8, 9⟩).m_idx.get 2) :=
  opIndex_in_bounds ⟨4, 5, 6⟩ ⟨⟨7, 8, 9⟩⟩ 2 (by decide)

/-- C9: For every pair a, b of same-dimension index objects (range<d>
with range<d>, or id<d> with id<d>, d = 1, 2, 3), the relational
operators <, >, <=, >= return an object of the same index type (whose
default-constructed underlying array is `defRes`) whose i-th component
(i < d) is the 0-or-1 result of comparing a[i] with b[i] — not a single
boolean. -/
theorem relational_ops_componentwise (d i : Nat) (defRes a b : index_array)
    (hd : d ≤ 3) (hi : i < d) :
    (idx_lt d defRes a b).get i = (if a.get i < b.get i then 1 else 0) ∧
    (idx_gt d defRes a b).get i = (if b.get i < a.get i then 1 else 0) ∧
    (idx_le d defRes a b).get i = (if a.get i ≤ b.get i then 1 else 0) ∧
    (idx_ge d defRes a b).get i = (if b.get i ≤ a.get i then 1 else 0) := by
  have h3 : i < 3 := lt_of_lt_of_le hi hd
  interval_cases i <;>
    simp [idx_lt, idx_gt, idx_le, idx_ge, idx_cmp_op, index_array.get, hi,
      Bool.cond_decide]

/-- Witness for C9 at d = 2, i = 1, concrete arrays. -/
theorem relational_ops_componentwise_witness :
    (idx_lt 2 ⟨1, 1, 1⟩ ⟨3, 4, 9⟩ ⟨3, 7, 2⟩).get 1 =
      (if (4 : Nat) < 7 then 1 else 0) ∧
    (idx_gt 2 ⟨1, 1, 1⟩ ⟨3, 4, 9⟩ ⟨3, 7, 2⟩).get 1 =
      (if (7 : Nat) < 4 then 1 else 0) ∧
    (idx_le 2 ⟨1, 1, 1⟩ ⟨3, 4, 9⟩ ⟨3, 7, 2⟩).get 1 =
      (if (4 : Nat) ≤ 7 then 1 else 0) ∧
    (idx_ge 2 ⟨1, 1, 1⟩ ⟨3, 4, 9⟩ ⟨3, 7, 2⟩).get 1 =
      (if (7 : Nat) ≤ 4 then 1 else 0) :=
  relational_ops_componentwise 2 1 ⟨1, 1, 1⟩ ⟨3, 4, 9⟩ ⟨3, 7, 2⟩
    (by decide) (by decide)

/-- C3: For every group<d> (d = 1, 2, 3) constructed from a group id, a
group range and a global range whose components are all nonzero in the
group range, the number-of-groups index array stored in the group
equals the componentwise integer quotient globalRange[i] / groupRange[i]
for i = 0, 1, 2. -/
theorem group_ctor_numGroups_quotient
    (groupID groupRange globalRange : index_array)
    (h0 : groupRange.get 0 ≠ 0) (h1 : groupRange.get 1 ≠ 0)
    (h2 : groupRange.get 2 ≠ 0) :
    (group.ctor groupID groupRange globalRange).m_numGroups.get 0 =
      globalRange.get 0 / groupRange.get 0 ∧
    (group.ctor groupID groupRange globalRange).m_numGroups.get 1 =
      globalRange.get 1 / groupRange.get 1 ∧
    (group.ctor groupID groupRange globalRange).m_numGroups.get 2 =
      globalRange.get 2 / groupRange.get 2 :=
  ⟨rfl, rfl, rfl⟩

/-- Witness for C3 at a concrete group id (1,0,2), group range (2,4,5)
and global range (10,20,30). -/
theorem group_ctor_numGroups_quotient_witness :
    (group.ctor ⟨1, 0, 2⟩ ⟨2, 4, 5⟩ ⟨10, 20, 30⟩).m_numGroups.get 0 =
      10 / 2 ∧
    (group.ctor ⟨1, 0, 2⟩ ⟨2, 4, 5⟩ ⟨10, 20, 30⟩).m_numGroups.get 1 =
      20 / 4 ∧
    (group.ctor ⟨1, 0, 2⟩ ⟨2, 4, 5⟩ ⟨10, 20, 30⟩).m_numGroups.get 2 =
      30 / 5 :=
  group_ctor_numGroups_quotient ⟨1, 0, 2⟩ ⟨2, 4, 5⟩ ⟨10, 20, 30⟩
    (by decide) (by decide) (by decide)

/-- C8: info_convert<size_t*, range<3>>::cl_to_sycl(clPtr, numElems,
clParam) raises the ComputeCpp TARGET_FORMAT_ERROR if and only if
numElems != 3, and when numElems == 3 it returns
range<3>(clPtr[0], clPtr[1], clPtr[2]). -/
theorem cl_to_sycl_spec (clPtr : Nat → Nat) (numElems : Nat) :
    (numElems ≠ 3 →
      info_convert_cl_to_sycl clPtr numElems =
        Except.error cpp_error_code.TARGET_FORMAT_ERROR) ∧
    (numElems = 3 →
      info_convert_cl_to_sycl clPtr numElems =
        Except.ok (range3 (clPtr 0) (clPtr 1) (clPtr 2))) ∧
    (∀ e, info_convert_cl_to_sycl clPtr numElems = Except.error e →
      numElems ≠ 3 ∧ e = cpp_error_code.TARGET_FORMAT_ERROR) := by
  by_cases h : numElems = 3 <;>
    simp [info_convert_cl_to_sycl, h]

/-- Witness for C8: success at numElems = 3, error at numElems = 2. -/
theorem cl_to_sycl_spec_witness :
    info_convert_cl_to_sycl (fun k => k + 4) 3 =
      Except.ok (range3 4 5 6) ∧
    info_convert_cl_to_sycl (fun k => k + 4) 2 =
      Except.error cpp_error_code.TARGET_FORMAT_ERROR := by
  constructor
  · exact (cl_to_sycl_spec (fun k => k + 4) 3).2.1 rfl
  · exact (cl_to_sycl_spec (fun k => k + 4) 2).1 (by decide)

/-- A flatMap over `List.range n` whose pieces all have length `m` has
length `n * m`. -/
theorem length_range_flatMap {α : Type} (f : Nat → List α) (m : Nat)
    (hf : ∀ a, (f a).length = m) :
    ∀ n, ((List.range n).flatMap f).length = n * m := by
  intro n
  induction n with
  | zero => simp
  | succ k ih =>
    rw [List.range_succ, List.flatMap_append, List.length_append, ih]
    simp [hf, Nat.succ_mul]

/-- Indexing a flatMap over `List.range n` whose pieces all have length
`m`: position `i * m + j` lands at position `j` of piece `i`. -/
theorem getElem?_range_flatMap {α : Type} (f : Nat → List α) (m : Nat)
    (hf : ∀ a, (f a).length = m) :
    ∀ n i j, i < n → j < m →
      ((List.range n).flatMap f)[i * m + j]? = (f i)[j]? := by
  intro n
  induction n with
  | zero => intro i j hi _; exact absurd hi (Nat.not_lt_zero i)
  | succ k ih =>
    intro i j hi hj
    rw [List.range_succ, List.flatMap_append]
    have hlen : ((List.range k).flatMap f).length = k * m :=
      length_range_flatMap f m hf k
    by_cases hik : i < k
    · have hpos : i * m + j < k * m := by
        have h1 : i * m + j < (i + 1) * m := by
          rw [Nat.succ_mul]
          omega
        have h2 : (i + 1) * m ≤ k * m := Nat.mul_le_mul_right m hik
        omega
      rw [List.getElem?_append_left (by rw [hlen]; exact hpos)]
      exact ih i j hik hj
    · have hik' : i = k := by omega
      subst hik'
      rw [List.getElem?_append_right (by rw [hlen]; omega)]
      rw [hlen]
      have hsub : i * m + j - i * m = j := by omega
      rw [hsub]
      simp

/-- C2: For every group<d> g (d = 1, 2, 3) and every flexibleRange, the
host implementation of g.parallel_for_work_item(flexibleRange, func)
invokes func exactly once per logical index (x, y, z) with
0 <= x < flexibleRange[0], 0 <= y < flexibleRange[1],
0 <= z < flexibleRange[2], iterating z outermost and x innermost (the
invocation list has exactly flexibleRange[2]*flexibleRange[1]*
flexibleRange[0] entries and the invocation for (x, y, z) sits at
position (z*flexibleRange[1] + y)*flexibleRange[0] + x), and passes an
h_item whose physical local id component i equals the logical index
component i modulo the physical local range component i, and whose
global id equals physicalLocalRange * groupID + physicalLocalID
componentwise (with the C++ id operators at dimensionality d). -/
theorem parallel_for_work_item_spec (d : Nat) (g : group_base)
    (fr : index_array) (x y z : Nat)
    (hd1 : 1 ≤ d) (hd3 : d ≤ 3)
    (hx : x < fr.get 0) (hy : y < fr.get 1) (hz : z < fr.get 2) :
    (parallel_for_work_item d g fr).length =
      fr.get 2 * (fr.get 1 * fr.get 0) ∧
    ∃ it : h_item_base,
      (parallel_for_work_item d g fr)[(z * fr.get 1 + y) * fr.get 0 + x]? =
        some it ∧
      it.logicalLocalItem.m_id = id_ofIndexArray d ⟨x, y, z⟩ ∧
      it.logicalLocalItem.m_range = fr ∧
      (∀ i, i < 3 →
        it.physicalLocalItem.m_id.get i =
          (index_array.mk x y z).get i %
            (range_ofIndexArray d g.m_localRange).get i) ∧
      it.physicalLocalItem.m_range = range_ofIndexArray d g.m_localRange ∧
      it.globalItem.m_id =
        id_add_id d
          (range_mul_id d (range_ofIndexArray d g.m_localRange)
            (id_ofIndexArray d g.m_groupID))
          it.physicalLocalItem.m_id ∧
      it.globalItem.m_range = range_ofIndexArray d g.m_globalRange := by
  have houter : ∀ a : Nat,
      ((List.range (fr.get 1)).flatMap fun itemY =>
        (List.range (fr.get 0)).map fun itemX =>
          (fun itemZ itemY itemX =>
            (⟨⟨id_ofIndexArray d ⟨itemX, itemY, itemZ⟩, fr⟩,
              ⟨⟨itemX % (range_ofIndexArray d g.m_localRange).get 0,
                itemY % (range_ofIndexArray d g.m_localRange).get 1,
                itemZ % (range_ofIndexArray d g.m_localRange).get 2⟩,
               range_ofIndexArray d g.m_localRange⟩,
              ⟨id_add_id d
                 (range_mul_id d (range_ofIndexArray d g.m_localRange)
                   (id_ofIndexArray d g.m_groupID))
                 ⟨itemX % (range_ofIndexArray d g.m_localRange).get 0,
                  itemY % (range_ofIndexArray d g.m_localRange).get 1,
                  itemZ % (range_ofIndexArray d g.m_localRange).get 2⟩,
               range_ofIndexArray d g.m_globalRange⟩⟩ : h_item_base))
            a itemY itemX).length = fr.get 1 * fr.get 0 := by
    intro a
    apply length_range_flatMap
    intro b
    simp
  have hunfold : parallel_for_work_item d g fr =
      (List.range (fr.get 2)).flatMap fun itemZ =>
        (List.range (fr.get 1)).flatMap fun itemY =>
          (List.range (fr.get 0)).map fun itemX =>
            (fun itemZ itemY itemX =>
              (⟨⟨id_ofIndexArray d ⟨itemX, itemY, itemZ⟩, fr⟩,
                ⟨⟨itemX % (range_ofIndexArray d g.m_localRange).get 0,
                  itemY % (range_ofIndexArray d g.m_localRange).get 1,
                  itemZ % (range_ofIndexArray d g.m_localRange).get 2⟩,
                 range_ofIndexArray d g.m_localRange⟩,
                ⟨id_add_id d
                   (range_mul_id d (range_ofIndexArray d g.m_localRange)
                     (id_ofIndexArray d g.m_groupID))
                   ⟨itemX % (range_ofIndexArray d g.m_localRange).get 0,
                    itemY % (range_ofIndexArray d g.m_localRange).get 1,
                    itemZ % (range_ofIndexArray d g.m_localRange).get 2⟩,
                 range_ofIndexArray d g.m_globalRange⟩⟩ : h_item_base))
              itemZ itemY itemX := rfl
  constructor
  · rw [hunfold]
    exact length_range_flatMap _ (fr.get 1 * fr.get 0) houter (fr.get 2)
  · have hyx : y * fr.get 0 + x < fr.get 1 * fr.get 0 := by
      have h1 : y * fr.get 0 + x < (y + 1) * fr.get 0 := by
        rw [Nat.succ_mul]
        omega
      have h2 : (y + 1) * fr.get 0 ≤ fr.get 1 * fr.get 0 :=
        Nat.mul_le_mul_right (fr.get 0) hy
      omega
    have hposeq : (z * fr.get 1 + y) * fr.get 0 + x =
        z * (fr.get 1 * fr.get 0) + (y * fr.get 0 + x) := by ring
    refine ⟨⟨⟨id_ofIndexArray d ⟨x, y, z⟩, fr⟩,
      ⟨⟨x % (range_ofIndexArray d g.m_localRange).get 0,
        y % (range_ofIndexArray d g.m_localRange).get 1,
        z % (range_ofIndexArray d g.m_localRange).get 2⟩,
       range_ofIndexArray d g.m_localRange⟩,
      ⟨id_add_id d
         (range_mul_id d (range_ofIndexArray d g.m_localRange)
           (id_ofIndexArray d g.m_groupID))
         ⟨x % (range_ofIndexArray d g.m_localRange).get 0,
          y % (range_ofIndexArray d g.m_localRange).get 1,
          z % (range_ofIndexArray d g.m_localRange).get 2⟩,
       range_ofIndexArray d g.m_globalRange⟩⟩, ?_, rfl, rfl, ?_, rfl, rfl, rfl⟩
    · rw [hunfold, hposeq,
        getElem?_range_flatMap _ (fr.get 1 * fr.get 0) houter _ _ _ hz hyx,
        getElem?_range_flatMap _ (fr.get 0) (fun b => by simp) _ _ _ hy hx]
      simp [List.getElem?_range hx]
    · intro i hi
      interval_cases i <;> rfl

/-- Witness for C2 at d = 2, a concrete group, flexibleRange (2,3,1) and
logical index (1,2,0). -/
theorem parallel_for_work_item_spec_witness :
    (parallel_for_work_item 2
        ⟨⟨3, 1, 0⟩, ⟨4, 5, 6⟩, ⟨2, 2, 2⟩, ⟨40, 50, 60⟩, ⟨9, 9, 9⟩⟩
        ⟨2, 3, 1⟩).length =
      (index_array.mk 2 3 1).get 2 *
        ((index_array.mk 2 3 1).get 1 * (index_array.mk 2 3 1).get 0) ∧
    ∃ it : h_item_base,
      (parallel_for_work_item 2
          ⟨⟨3, 1, 0⟩, ⟨4, 5, 6⟩, ⟨2, 2, 2⟩, ⟨40, 50, 60⟩, ⟨9, 9, 9⟩⟩
          ⟨2, 3, 1⟩)[(0 * (index_array.mk 2 3 1).get 1 + 2) *
            (index_array.mk 2 3 1).get 0 + 1]? = some it ∧
      it.logicalLocalItem.m_id = id_ofIndexArray 2 ⟨1, 2, 0⟩ ∧
      it.logicalLocalItem.m_range = ⟨2, 3, 1⟩ ∧
      (∀ i, i < 3 →
        it.physicalLocalItem.m_id.get i =
          (index_array.mk 1 2 0).get i %
            (range_ofIndexArray 2 (index_array.mk 4 5 6)).get i) ∧
      it.physicalLocalItem.m_range =
        range_ofIndexArray 2 (index_array.mk 4 5 6) ∧
      it.globalItem.m_id =
        id_add_id 2
          (range_mul_id 2 (range_ofIndexArray 2 (index_array.mk 4 5 6))
            (id_ofIndexArray 2 (index_array.mk 3 1 0)))
          it.physicalLocalItem.m_id ∧
      it.globalItem.m_range =
        range_ofIndexArray 2 (index_array.mk 40 50 60) :=
  parallel_for_work_item_spec 2
    ⟨⟨3, 1, 0⟩, ⟨4, 5, 6⟩, ⟨2, 2, 2⟩, ⟨40, 50, 60⟩, ⟨9, 9, 9⟩⟩
    ⟨2, 3, 1⟩ 1 2 0 (by decide) (by decide) (by decide) (by decide)
    (by decide)

/-- The modulus `W` is positive. -/
theorem W_pos : 0 < W := by
  norm_num [W]

/-- Characterization of the global-to-local host loop: element `i + j`
of the destination receives `src[(srcIter + j*srcStride) mod 2^64]`,
and offsets outside `[i, i + r)` are untouched. -/
theorem g2l_loop_spec (src : Nat → Nat) (stride : Nat) :
    ∀ r i srcIter dest, srcIter < W →
      (∀ j, j < r → g2l_loop src stride r i srcIter dest (i + j) =
          src ((srcIter + j * stride) % W)) ∧
      (∀ k, (k < i ∨ i + r ≤ k) →
        g2l_loop src stride r i srcIter dest k = dest k) := by
  intro r
  induction r with
  | zero =>
    intro i srcIter dest _
    exact ⟨fun j hj => absurd hj (by omega), fun k _ => rfl⟩
  | succ r ih =>
    intro i srcIter dest hlt
    have hlt' : stAdd srcIter stride < W := Nat.mod_lt _ W_pos
    obtain ⟨ihv, ihu⟩ :=
      ih (i + 1) (stAdd srcIter stride) (memUpd dest i (src srcIter)) hlt'
    constructor
    · intro j hj
      cases j with
      | zero =>
        have h0 := ihu i (Or.inl (by omega))
        rw [g2l_loop]
        simp only [Nat.add_zero, Nat.zero_mul]
        rw [h0]
        simp [memUpd, Nat.mod_eq_of_lt hlt]
      | succ j' =>
        have hidx : i + (j' + 1) = (i + 1) + j' := by omega
        rw [g2l_loop, hidx, ihv j' (by omega)]
        congr 1
        show ((srcIter + stride) % W + j' * stride) % W =
          (srcIter + (j' + 1) * stride) % W
        rw [Nat.mod_add_mod]
        congr 1
        ring
    · intro k hk
      rw [g2l_loop, ihu k (by omega)]
      have hki : k ≠ i := by omega
      simp [memUpd, hki]

/-- Characterization of the local-to-global host loop, with no
assumption on the stride: iteration `i + j` writes `src[i + j]` to
offset `((i + j) * destStride) mod 2^64`, so that offset holds
`src[i + j]` whenever no later iteration hits the same offset, and
every offset hit by no iteration is untouched. -/
theorem l2g_loop_spec (src : Nat → Nat) (stride : Nat) :
    ∀ r i dest,
      (∀ j, j < r →
        (∀ j', j < j' → j' < r →
          ((i + j') * stride) % W ≠ ((i + j) * stride) % W) →
        l2g_loop src stride r i ((i * stride) % W) dest
          (((i + j) * stride) % W) = src (i + j)) ∧
      (∀ k, (∀ j, j < r → k ≠ ((i + j) * stride) % W) →
        l2g_loop src stride r i ((i * stride) % W) dest k = dest k) := by
  intro r
  induction r with
  | zero =>
    intro i dest
    exact ⟨fun j hj _ => absurd hj (by omega), fun k _ => rfl⟩
  | succ r ih =>
    intro i dest
    have hstep : stAdd ((i * stride) % W) stride = ((i + 1) * stride) % W := by
      show ((i * stride) % W + stride) % W = ((i + 1) * stride) % W
      rw [Nat.mod_add_mod, Nat.succ_mul]
    obtain ⟨ihv, ihu⟩ := ih (i + 1) (memUpd dest ((i * stride) % W) (src i))
    constructor
    · intro j hj hlater
      cases j with
      | zero =>
        simp only [Nat.add_zero] at hlater ⊢
        have hne : ∀ j'', j'' < r →
            (i * stride) % W ≠ ((i + 1 + j'') * stride) % W := by
          intro j'' hj''
          have h1 := hlater (j'' + 1) (by omega) (by omega)
          have he : i + (j'' + 1) = i + 1 + j'' := by omega
          rw [he] at h1
          exact Ne.symm h1
        have h0 := ihu ((i * stride) % W) hne
        rw [l2g_loop, hstep, h0]
        simp [memUpd]
      | succ j'' =>
        have he : i + (j'' + 1) = i + 1 + j'' := by omega
        rw [l2g_loop, hstep, he]
        apply ihv j'' (by omega)
        intro j' hgt hlt
        have h1 := hlater (j' + 1) (by omega) (by omega)
        have he1 : i + (j' + 1) = i + 1 + j' := by omega
        rw [he1, he] at h1
        exact h1
    · intro k hk
      have hk' : ∀ j'', j'' < r → k ≠ ((i + 1 + j'') * stride) % W := by
        intro j'' hj''
        have h1 := hk (j'' + 1) (by omega)
        have he : i + (j'' + 1) = i + 1 + j'' := by omega
        rw [he] at h1
        exact h1
      have hk0 : k ≠ (i * stride) % W := by
        have h1 := hk 0 (by omega)
        simpa using h1
      rw [l2g_loop, hstep, ihu k hk']
      simp [memUpd, hk0]

/-- Counterexample to C1: on the host path (the `#ifndef
__SYCL_DEVICE_ONLY__` branch of group.h:317-326), the library's own
code performs the element-by-element data movement itself: for the
zero-id group, one element and stride 1, the destination memory cell 0
afterwards holds the value the library loop read from the source
(7), even though it held 0 before — no OpenCL or compiler-runtime
delegation is involved in this transfer. -/
theorem awgc_host_performs_copy_itself :
    async_work_group_copy_g2l_host 1
      ⟨⟨0, 0, 0⟩, ⟨1, 1, 1⟩, ⟨1, 1, 1⟩, ⟨1, 1, 1⟩, ⟨1, 1, 1⟩⟩
      (fun _ => 0) (fun _ => 7) 1 1 0 = 7 ∧
    (fun _ => (0 : Nat)) 0 = 0 :=
  ⟨rfl, rfl⟩

/-- C1 as amended: on the device-compiled path the transfer is
delegated to the compiler builtins, but on the host path
async_work_group_copy performs the element-by-element copy itself: the
group whose id is (0,0,0) executes the loop — global-to-local writes
src[(i*srcStride) mod 2^64] into dest[i] for each i < numElements;
local-to-global writes src[i] into dest[(i*destStride) mod 2^64] in
increasing i, so an offset ends with the value of the last iteration
writing it (in particular dest[i*destStride] = src[i] whenever
destStride > 0 and numElements*destStride ≤ 2^64, so that no two
iterations collide); the non-strided overloads delegate to the strided
ones with stride 1 — every destination offset written by no iteration
is left untouched (k ≥ numElements for global-to-local, k not of the
form (i*destStride) mod 2^64 for local-to-global), and a group with
nonzero id leaves the destination memory unchanged. -/
theorem awgc_host_copy_characterization (d : Nat) (g : group_base)
    (dest src : Nat → Nat) (n stride : Nat) :
    (group_base.is_zero_id d g = false →
      async_work_group_copy_g2l_host d g dest src n stride = dest ∧
      async_work_group_copy_l2g_host d g dest src n stride = dest) ∧
    (group_base.is_zero_id d g = true →
      (∀ i, i < n →
        async_work_group_copy_g2l_host d g dest src n stride i =
          src ((i * stride) % W)) ∧
      (∀ k, n ≤ k →
        async_work_group_copy_g2l_host d g dest src n stride k = dest k) ∧
      (∀ i, i < n →
        (∀ j, i < j → j < n → (j * stride) % W ≠ (i * stride) % W) →
        async_work_group_copy_l2g_host d g dest src n stride
          ((i * stride) % W) = src i) ∧
      (∀ k, (∀ i, i < n → k ≠ (i * stride) % W) →
        async_work_group_copy_l2g_host d g dest src n stride k = dest k) ∧
      (0 < stride → n * stride ≤ W →
        ∀ i, i < n →
          async_work_group_copy_l2g_host d g dest src n stride
            (i * stride) = src i)) ∧
    async_work_group_copy_g2l_host_nostride d g dest src n =
      async_work_group_copy_g2l_host d g dest src n 1 ∧
    async_work_group_copy_l2g_host_nostride d g dest src n =
      async_work_group_copy_l2g_host d g dest src n 1 := by
  refine ⟨?_, ?_, rfl, rfl⟩
  · intro hz
    constructor
    · simp [async_work_group_copy_g2l_host, hz]
    · simp [async_work_group_copy_l2g_host, hz]
  · intro hz
    have hL : async_work_group_copy_l2g_host d g dest src n stride =
        l2g_loop src stride n 0 ((0 * stride) % W) dest := by
      have h00 : ((0 * stride) % W : Nat) = 0 := by simp
      rw [h00]
      simp [async_work_group_copy_l2g_host, hz]
    have hlift : ∀ i, i < n →
        (∀ j, i < j → j < n → (j * stride) % W ≠ (i * stride) % W) →
        async_work_group_copy_l2g_host d g dest src n stride
          ((i * stride) % W) = src i := by
      intro i hi hlater
      have hc : ∀ j', i < j' → j' < n →
          ((0 + j') * stride) % W ≠ ((0 + i) * stride) % W := by
        intro j' h1 h2
        simpa using hlater j' h1 h2
      have h := (l2g_loop_spec src stride n 0 dest).1 i hi hc
      rw [hL]
      simpa using h
    refine ⟨?_, ?_, hlift, ?_, ?_⟩
    · intro i hi
      have h := (g2l_loop_spec src stride n 0 0 dest W_pos).1 i hi
      simpa [async_work_group_copy_g2l_host, hz] using h
    · intro k hk
      have h := (g2l_loop_spec src stride n 0 0 dest W_pos).2 k
        (Or.inr (by omega))
      simpa [async_work_group_copy_g2l_host, hz] using h
    · intro k hk
      have hc : ∀ j, j < n → k ≠ ((0 + j) * stride) % W := by
        intro j hj
        simpa using hk j hj
      have h := (l2g_loop_spec src stride n 0 dest).2 k hc
      rw [hL]
      simpa using h
    · intro hp hW i hi
      have hilt : i * stride < W := by
        have h1 : (i + 1) * stride ≤ n * stride :=
          Nat.mul_le_mul_right stride (by omega)
        rw [Nat.succ_mul] at h1
        omega
      have hmodi : (i * stride) % W = i * stride := Nat.mod_eq_of_lt hilt
      have hlater : ∀ j, i < j → j < n →
          (j * stride) % W ≠ (i * stride) % W := by
        intro j h1 h2
        have hjlt : j * stride < W := by
          have h3 : (j + 1) * stride ≤ n * stride :=
            Nat.mul_le_mul_right stride (by omega)
          rw [Nat.succ_mul] at h3
          omega
        rw [Nat.mod_eq_of_lt hjlt, hmodi]
        have h4 : i * stride < j * stride := (Nat.mul_lt_mul_right hp).mpr h1
        omega
      have h := hlift i hi hlater
      rw [hmodi] at h
      exact h

/-- Witness for the amended C1 at a concrete zero-id group, two
elements and stride 3, exercising both copy directions, both
untouched clauses and the collision-free corollary. -/
theorem awgc_host_copy_characterization_witness :
    async_work_group_copy_g2l_host 1
      ⟨⟨0, 0, 0⟩, ⟨1, 1, 1⟩, ⟨1, 1, 1⟩, ⟨1, 1, 1⟩, ⟨1, 1, 1⟩⟩
      (fun _ => 0) (fun k => k + 10) 2 3 1 = 13 ∧
    async_work_group_copy_g2l_host 1
      ⟨⟨0, 0, 0⟩, ⟨1, 1, 1⟩, ⟨1, 1, 1⟩, ⟨1, 1, 1⟩, ⟨1, 1, 1⟩⟩
      (fun _ => 0) (fun k => k + 10) 2 3 5 = 0 ∧
    async_work_group_copy_l2g_host 1
      ⟨⟨0, 0, 0⟩, ⟨1, 1, 1⟩, ⟨1, 1, 1⟩, ⟨1, 1, 1⟩, ⟨1, 1, 1⟩⟩
      (fun _ => 0) (fun k => k + 10) 2 3 3 = 11 ∧
    async_work_group_copy_l2g_host 1
      ⟨⟨0, 0, 0⟩, ⟨1, 1, 1⟩, ⟨1, 1, 1⟩, ⟨1, 1, 1⟩, ⟨1, 1, 1⟩⟩
      (fun _ => 0) (fun k => k + 10) 2 3 7 = 0 := by
  have h := awgc_host_copy_characterization 1
    ⟨⟨0, 0, 0⟩, ⟨1, 1, 1⟩, ⟨1, 1, 1⟩, ⟨1, 1, 1⟩, ⟨1, 1, 1⟩⟩
    (fun _ => 0) (fun k => k + 10) 2 3
  refine ⟨?_, ?_, ?_, ?_⟩
  · have h1 := (h.2.1 rfl).1 1 (by omega)
    have hm : ((1 * 3) % W : Nat) = 3 := by norm_num [W]
    rw [hm] at h1
    exact h1
  · exact (h.2.1 rfl).2.1 5 (by omega)
  · have h2 := (h.2.1 rfl).2.2.2.2 (by omega) (by norm_num [W]) 1 (by omega)
    simpa using h2
  · have h3 := (h.2.1 rfl).2.2.2.1 7 ?_
    · exact h3
    · intro i hi
      interval_cases i <;> norm_num [W]

end SYCL
